import Mathlib

/-!
Verification of the Whisper ASR server core (docker/whisper-asr/server.py):
the engine handle with its lazily loaded global model, the transcription
handler normalizing the two engine result shapes, the language-detection
handler, and the temporary-file cleanup that runs on every exit path.
-/

namespace WhisperASR

/-- One segment record produced by the fast engine (faster_whisper). -/
structure Segment where
  text : String
deriving Repr, DecidableEq

/-- The metadata record produced by the fast engine's transcription call,
carrying the detected language and its probability. -/
structure FastInfo where
  language : String
  language_probability : ℚ
deriving Repr, DecidableEq

/-- The aggregate record produced by the standard engine (openai whisper).
The language field of the underlying dictionary may be absent (none), present
with the null value (some none) or present with a code (some (some s)). -/
structure StdResult where
  text : String
  language : Option (Option String)
deriving Repr, DecidableEq

/-- The outcome the selected backend produces for the current transcription
request: the fast engine yields a list of segment records plus one metadata
record, the standard engine a single aggregate record; either call may raise,
carrying an error message. -/
inductive Backend where
  | fast (outcome : Except String (List Segment × FastInfo))
  | std (outcome : Except String StdResult)

/-- HTTP response of the transcription endpoint: the plain-text payload
returned for the txt output value, the structured record with text, language
and task fields, or an HTTP error carrying a status code and a detail
message. -/
inductive Response where
  | plainText (content : String)
  | json (text : String) (language : Option String) (task : String)
  | error (status : Nat) (detail : String)
deriving Repr, DecidableEq

/-- Python str.join with a single-space separator, as used to aggregate the
fast engine's segment texts in order. -/
def joinSpace (l : List String) : String :=
  String.intercalate " " l

/-- Python str.strip with no argument: remove whitespace characters from both
ends of the string, leaving the interior untouched. -/
def strip (s : String) : String :=
  ⟨((s.data.dropWhile Char.isWhitespace).reverse.dropWhile
      Char.isWhitespace).reverse⟩

/-- Python dict.get applied to the standard result's language field with the
request language as default: the default is returned only when the key is
absent, not when the key is present holding the null value. -/
def dictGet (field : Option (Option String)) (fallback : Option String) :
    Option String :=
  match field with
  | none => fallback
  | some v => v

/-- Cleanup step of the finally blocks: the temporary file is unlinked only
after a check that it still exists, so an already-removed file is tolerated.
Takes whether the file exists and returns whether it exists afterwards. -/
def cleanupTmp (tmpExists : Bool) : Bool :=
  if tmpExists then false else tmpExists

/-- The transcription handler after the upload has been written to the
temporary file, mirroring the try/except/finally structure of the endpoint:
dispatch on the engine kind, normalize the backend outcome into a text and a
language, special-case the txt output value with the raw text, otherwise
return the structured record with trimmed text, turn a backend exception into
a 500 error with the exception's message, and always run the cleanup step.
Returns the response together with whether the temporary file still exists
when the handler returns. -/
def transcribe (backend : Backend) (task : String) (language : Option String)
    (output : String) : Response × Bool :=
  let tmpExists := true
  let inference : Except String (String × Option String) :=
    match backend with
    | .fast (Except.ok (segments, info)) =>
        Except.ok (joinSpace (segments.map Segment.text), some info.language)
    | .fast (Except.error e) => Except.error e
    | .std (Except.ok result) =>
        Except.ok (result.text, dictGet result.language language)
    | .std (Except.error e) => Except.error e
  let resp : Response :=
    match inference with
    | Except.ok (text, detected) =>
        if output == "txt" then Response.plainText text
        else Response.json (strip text) detected task
    | Except.error e => Response.error 500 e
  (resp, cleanupTmp tmpExists)

/-- A probability distribution over languages, as the insertion-ordered list
of key and value pairs of the Python dictionary. -/
abbrev Probs := List (String × ℚ)

/-- One step of Python max over the dictionary keys with the probability as
comparison key: the accumulator is replaced only on a strictly greater value,
so the first key attaining the maximum wins. -/
def maxStep (acc y : String × ℚ) : String × ℚ :=
  if acc.2 < y.2 then y else acc

/-- Python max(probs, key dot get) over a nonempty dictionary, returning the
first key attaining the maximal probability, paired with that probability;
none on the empty dictionary, where Python raises ValueError. -/
def pyMax (probs : Probs) : Option (String × ℚ) :=
  match probs with
  | [] => none
  | x :: xs => some (xs.foldl maxStep x)

/-- Python dictionary subscript lookup: the value at the first matching key,
if any. -/
def dictLookup (probs : Probs) (k : String) : Option ℚ :=
  (probs.find? (fun p => p.1 == k)).map Prod.snd

/-- The outcome the backend produces for a language-detection request: the
fast engine reuses its transcription call and only the metadata record is
used; the standard engine's detection-only call yields a probability
distribution over languages. Either may raise with a message. -/
inductive DetectBackend where
  | fast (outcome : Except String (List Segment × FastInfo))
  | std (outcome : Except String Probs)

/-- HTTP response of the language-detection endpoint: the detected language
with its probability, or an HTTP error. -/
inductive DetectResponse where
  | ok (detected_language : String) (language_probability : ℚ)
  | error (status : Nat) (detail : String)
deriving Repr, DecidableEq

/-- The language-detection handler after the upload has been written to the
temporary file: the fast engine returns the metadata record's language and
probability, the standard engine selects the maximal key of the probability
distribution and looks up its probability, an exception becomes a 500 error
with the exception's message, and the cleanup step always runs. Returns the
response together with whether the temporary file still exists when the
handler returns. -/
def detect_language (backend : DetectBackend) : DetectResponse × Bool :=
  let tmpExists := true
  let resp : DetectResponse :=
    match backend with
    | .fast (Except.ok (_, info)) =>
        DetectResponse.ok info.language info.language_probability
    | .fast (Except.error e) => DetectResponse.error 500 e
    | .std (Except.ok probs) =>
        match pyMax probs with
        | some (k, _) =>
            match dictLookup probs k with
            | some p => DetectResponse.ok k p
            | none => DetectResponse.error 500 "KeyError"
        | none => DetectResponse.error 500 "max() arg is an empty sequence"
    | .std (Except.error e) => DetectResponse.error 500 e
  (resp, cleanupTmp tmpExists)

/-- One call of get_model against the process-global cached model: when the
cache is empty, run the loader once; on success cache and return the handle,
on failure leave the cache empty and propagate the error; when the cache is
full, return the cached handle untouched. The loader argument captures the
engine-specific model construction (device probe, compute type, download
path) as one fallible operation. The third component counts how many load
operations this call executed. -/
def get_model {Model : Type} (loader : Except String Model)
    (cache : Option Model) : Except String Model × Option Model × Nat :=
  match cache with
  | some m => (Except.ok m, some m, 0)
  | none =>
    match loader with
    | Except.ok m => (Except.ok m, some m, 1)
    | Except.error e => (Except.error e, none, 1)

/-- N calls of get_model in the order the cooperative event loop serializes
them (the function body has no await point, so each call runs atomically with
respect to the other request handlers). Returns the final cache, the list of
per-caller results in order, and the total number of load operations. -/
def runCalls {Model : Type} (loader : Except String Model) :
    Nat → Option Model → Option Model × List (Except String Model) × Nat
  | 0, cache => (cache, [], 0)
  | Nat.succ n, cache =>
    let r := get_model loader cache
    let rest := runCalls loader n r.2.1
    (rest.1, r.1 :: rest.2.1, r.2.2 + rest.2.2)

theorem runCalls_cached {Model : Type} (loader : Except String Model)
    (m : Model) : ∀ n, runCalls loader n (some m)
      = (some m, List.replicate n (Except.ok m), 0)
  | 0 => rfl
  | Nat.succ n => by
      simp [runCalls, get_model, runCalls_cached loader m n, List.replicate]

theorem foldl_maxStep_mem (xs : List (String × ℚ)) (acc : String × ℚ) :
    xs.foldl maxStep acc = acc ∨ xs.foldl maxStep acc ∈ xs := by
  induction xs generalizing acc with
  | nil => exact Or.inl rfl
  | cons y ys ih =>
    rw [List.foldl_cons]
    rcases ih (maxStep acc y) with h | h
    · rw [h]
      unfold maxStep
      split
      · exact Or.inr (List.mem_cons_self y ys)
      · exact Or.inl rfl
    · exact Or.inr (List.mem_cons_of_mem y h)

theorem foldl_maxStep_le (xs : List (String × ℚ)) (acc : String × ℚ) :
    acc.2 ≤ (xs.foldl maxStep acc).2
    ∧ ∀ q ∈ xs, q.2 ≤ (xs.foldl maxStep acc).2 := by
  induction xs generalizing acc with
  | nil => exact ⟨le_refl _, by simp⟩
  | cons y ys ih =>
    rw [List.foldl_cons]
    have h := ih (maxStep acc y)
    have hacc : acc.2 ≤ (maxStep acc y).2 := by
      unfold maxStep
      split
      · exact le_of_lt (by assumption)
      · exact le_refl _
    have hy : y.2 ≤ (maxStep acc y).2 := by
      unfold maxStep
      split
      · exact le_refl _
      · exact le_of_not_lt (by assumption)
    refine ⟨le_trans hacc h.1, ?_⟩
    intro q hq
    rcases List.mem_cons.mp hq with rfl | hq
    · exact le_trans hy h.1
    · exact h.2 q hq

theorem pyMax_mem (probs : Probs) (k : String) (p : ℚ)
    (h : pyMax probs = some (k, p)) : (k, p) ∈ probs := by
  cases probs with
  | nil => simp [pyMax] at h
  | cons x xs =>
    simp only [pyMax, Option.some.injEq] at h
    rcases foldl_maxStep_mem xs x with hx | hx
    · rw [h] at hx
      rw [hx]
      exact List.mem_cons_self x xs
    · rw [h] at hx
      exact List.mem_cons_of_mem x hx

theorem pyMax_le (probs : Probs) (k : String) (p : ℚ)
    (h : pyMax probs = some (k, p)) : ∀ q ∈ probs, q.2 ≤ p := by
  cases probs with
  | nil => simp [pyMax] at h
  | cons x xs =>
    simp only [pyMax, Option.some.injEq] at h
    intro q hq
    have hle := foldl_maxStep_le xs x
    rcases List.mem_cons.mp hq with rfl | hq
    · rw [h] at hle
      exact hle.1
    · have := hle.2 q hq
      rw [h] at this
      exact this

theorem dictLookup_eq (probs : Probs) (k : String) (p : ℚ)
    (hmem : (k, p) ∈ probs)
    (hnd : (probs.map Prod.fst).Nodup) : dictLookup probs k = some p := by
  induction probs with
  | nil => simp at hmem
  | cons x xs ih =>
    rw [List.map_cons, List.nodup_cons] at hnd
    rcases List.mem_cons.mp hmem with rfl | hmem
    · simp [dictLookup]
    · have hxk : x.1 ≠ k := by
        intro hk
        exact hnd.1 (hk ▸ (List.mem_map.mpr ⟨(k, p), hmem, rfl⟩))
      have hrec := ih hmem hnd.2
      simp only [dictLookup, List.find?] at hrec ⊢
      rw [show (x.1 == k) = false from beq_eq_false_iff_ne.mpr hxk]
      exact hrec

/-- C1 counterexample: a standard-engine backend result whose language key is
present but holds the null value, with requested language fr, yields a
response whose language is null, not fr — dict.get falls back only when the
key is absent, so the claim's fallback-on-None does not hold. -/
theorem c1_counterexample :
    transcribe (Backend.std (Except.ok ⟨" Hi there ", some none⟩)) "transcribe"
        (some "fr") "json"
      = (Response.json "Hi there" none "transcribe", false)
    ∧ Response.json "Hi there" none "transcribe"
      ≠ Response.json "Hi there" (some "fr") "transcribe" := by
  exact ⟨by decide, by decide⟩

/-- C1 amended: for the standard engine, the response language equals the
caller-requested language exactly when the backend result's language key is
absent; when the key is present its value is returned unchanged, even when it
is null; in particular a backend result with text " Hi there " and the key
absent, with request language fr, yields language fr and trimmed text. -/
theorem c1_std_language_fallback (text : String) (reqLang pres : Option String)
    (task output : String) (h : output ≠ "txt") :
    transcribe (Backend.std (Except.ok ⟨text, none⟩)) task reqLang output
      = (Response.json (strip text) reqLang task, false)
    ∧ transcribe (Backend.std (Except.ok ⟨text, some pres⟩)) task reqLang output
      = (Response.json (strip text) pres task, false) := by
  have hb : (output == "txt") = false := beq_eq_false_iff_ne.mpr h
  exact ⟨by simp [transcribe, dictGet, cleanupTmp, hb],
    by simp [transcribe, dictGet, cleanupTmp, hb]⟩

/-- C1 witness: the amended fallback at the concrete input of the claim. -/
theorem c1_std_language_fallback_witness :
    transcribe (Backend.std (Except.ok ⟨" Hi there ", none⟩)) "transcribe"
        (some "fr") "json"
      = (Response.json "Hi there" (some "fr") "transcribe", false) := by
  rw [(c1_std_language_fallback " Hi there " (some "fr") none "transcribe"
    "json" (by decide)).1]
  decide

/-- C2 counterexample: with output txt the payload is the raw backend text,
leading and trailing whitespace included — the claimed trimming does not
happen on the plain-text path. -/
theorem c2_counterexample :
    transcribe (Backend.std (Except.ok ⟨" Hi there ", none⟩)) "transcribe"
        none "txt"
      = (Response.plainText " Hi there ", false)
    ∧ Response.plainText " Hi there " ≠ Response.plainText "Hi there" := by
  exact ⟨rfl, by decide⟩

/-- C2 amended: for every transcription request with output value txt and for
either engine kind, the response payload is exactly the raw backend text,
untrimmed, as a plain string with no surrounding structured object; the
output value text is not special-cased and yields the structured object. -/
theorem c2_txt_raw_payload (r : StdResult) (segs : List Segment)
    (info : FastInfo) (task : String) (lang : Option String) :
    transcribe (Backend.std (Except.ok r)) task lang "txt"
      = (Response.plainText r.text, false)
    ∧ transcribe (Backend.fast (Except.ok (segs, info))) task lang "txt"
      = (Response.plainText (joinSpace (segs.map Segment.text)), false)
    ∧ transcribe (Backend.std (Except.ok r)) task lang "text"
      = (Response.json (strip r.text) (dictGet r.language lang) task, false) := by
  exact ⟨rfl, rfl, rfl⟩

/-- C3: on every exit path of either handler — any backend outcome, including
exceptions — the temporary audio file no longer exists when the handler
returns, and the cleanup step tolerates a file that is already gone by
checking existence before unlinking. -/
theorem c3_tmp_file_removed (b : Backend) (d : DetectBackend) (task : String)
    (lang : Option String) (output : String) :
    (transcribe b task lang output).2 = false
    ∧ (detect_language d).2 = false
    ∧ cleanupTmp false = false := by
  exact ⟨rfl, rfl, rfl⟩

/-- C4: N calls of get_model arriving before the first load completes are
serialized by the cooperative event loop (the function has no await point);
in any such execution exactly one load operation runs and every caller
obtains the same loaded handle. -/
theorem c4_single_load {Model : Type} (m : Model) (n : Nat) (h : 1 ≤ n) :
    runCalls (Except.ok m) n none
      = (some m, List.replicate n (Except.ok m), 1) := by
  cases n with
  | zero => exact absurd h (by decide)
  | succ k =>
    simp [runCalls, get_model, runCalls_cached, List.replicate]

/-- C4 witness: three callers, one load, all observe the same handle. -/
theorem c4_single_load_witness :
    runCalls (Except.ok (0 : Nat)) 3 none
      = (some 0, List.replicate 3 (Except.ok 0), 1) :=
  c4_single_load 0 3 (by decide)

/-- C5: for the fast engine the final text is the segment texts joined by
single spaces in segment order — the txt path returns exactly that join, the
structured path returns it trimmed — and the response language is the
metadata record's language; at the claim's concrete input the result is the
record with text Hello world, language en and task transcribe. -/
theorem c5_fast_join (segs : List Segment) (info : FastInfo) (task : String)
    (lang : Option String) (output : String) (h : output ≠ "txt") :
    transcribe (Backend.fast (Except.ok (segs, info))) task lang output
      = (Response.json (strip (joinSpace (segs.map Segment.text)))
          (some info.language) task, false)
    ∧ transcribe (Backend.fast (Except.ok (segs, info))) task lang "txt"
      = (Response.plainText (joinSpace (segs.map Segment.text)), false)
    ∧ transcribe (Backend.fast (Except.ok ([⟨"Hello"⟩, ⟨"world"⟩], ⟨"en", 1⟩)))
        "transcribe" none "json"
      = (Response.json "Hello world" (some "en") "transcribe", false) := by
  have hb : (output == "txt") = false := beq_eq_false_iff_ne.mpr h
  exact ⟨by simp [transcribe, cleanupTmp, hb], rfl, by decide⟩

/-- C5 witness: the fast-engine aggregation at the claim's concrete input. -/
theorem c5_fast_join_witness :
    transcribe (Backend.fast (Except.ok ([⟨"Hello"⟩, ⟨"world"⟩], ⟨"en", 1⟩)))
        "transcribe" none "json"
      = (Response.json "Hello world" (some "en") "transcribe", false) :=
  (c5_fast_join [⟨"Hello"⟩, ⟨"world"⟩] ⟨"en", 1⟩ "transcribe" none "json"
    (by decide)).2.2

/-- C6: for a standard-engine detection over a distribution with distinct
keys on which pyMax selects the pair of k and p, the handler returns k with
probability p, the pair belongs to the distribution, and p is maximal among
all probabilities — so any language attaining the maximum may win under ties,
with no specific winner guaranteed beyond first occurrence. -/
theorem c6_detect_max (probs : Probs) (k : String) (p : ℚ)
    (h : pyMax probs = some (k, p))
    (hnd : (probs.map Prod.fst).Nodup) :
    detect_language (DetectBackend.std (Except.ok probs))
      = (DetectResponse.ok k p, false)
    ∧ (k, p) ∈ probs
    ∧ ∀ q ∈ probs, q.2 ≤ p := by
  have hmem := pyMax_mem probs k p h
  have hlook := dictLookup_eq probs k p hmem hnd
  refine ⟨?_, hmem, pyMax_le probs k p h⟩
  simp [detect_language, cleanupTmp, h, hlook]

/-- C6 witness: the distribution giving en probability nine tenths and fr one
tenth yields en with probability nine tenths. -/
theorem c6_detect_max_witness :
    detect_language (DetectBackend.std
        (Except.ok [("en", mkRat 9 10), ("fr", mkRat 1 10)]))
      = (DetectResponse.ok "en" (mkRat 9 10), false) :=
  (c6_detect_max [("en", mkRat 9 10), ("fr", mkRat 1 10)] "en" (mkRat 9 10)
    (by decide) (by decide)).1

/-- C7: a backend exception during transcription or detection, for either
engine kind, surfaces as a 500 error whose detail equals the backend
exception's message, and the temporary file is still removed. -/
theorem c7_inference_error (e task : String) (lang : Option String)
    (output : String) :
    transcribe (Backend.fast (Except.error e)) task lang output
      = (Response.error 500 e, false)
    ∧ transcribe (Backend.std (Except.error e)) task lang output
      = (Response.error 500 e, false)
    ∧ detect_language (DetectBackend.fast (Except.error e))
      = (DetectResponse.error 500 e, false)
    ∧ detect_language (DetectBackend.std (Except.error e))
      = (DetectResponse.error 500 e, false) := by
  exact ⟨rfl, rfl, rfl, rfl⟩

/-- C8: when the loader raises, get_model leaves the cache unset, propagates
the error, and performs exactly one load attempt per call — a new attempt
happens only because a subsequent call runs get_model again, as the two-call
execution shows. -/
theorem c8_load_failure {Model : Type} (e : String) :
    get_model (Except.error e) (none : Option Model)
      = (Except.error e, none, 1)
    ∧ runCalls (Except.error e) 2 (none : Option Model)
      = (none, [Except.error e, Except.error e], 2) := by
  exact ⟨rfl, rfl⟩

/-- C9: once the handle is loaded, get_model returns the cached handle with
zero load operations, whatever the loader would do, and any number of further
calls leaves the cache unchanged with zero loads — so the absent-to-loaded
transition happens at most once per process lifetime. -/
theorem c9_idempotent_after_load {Model : Type} (loader : Except String Model)
    (m : Model) (n : Nat) :
    get_model loader (some m) = (Except.ok m, some m, 0)
    ∧ runCalls loader n (some m)
      = (some m, List.replicate n (Except.ok m), 0) := by
  exact ⟨rfl, runCalls_cached loader m n⟩

/-- C10: every output value other than txt — json, but also vtt, srt or any
other string — yields the structured record with trimmed text, language and
task, for both engine kinds; txt is the only special-cased output value. -/
theorem c10_structured_default (r : StdResult) (segs : List Segment)
    (info : FastInfo) (task : String) (lang : Option String) (output : String)
    (h : output ≠ "txt") :
    transcribe (Backend.std (Except.ok r)) task lang output
      = (Response.json (strip r.text) (dictGet r.language lang) task, false)
    ∧ transcribe (Backend.fast (Except.ok (segs, info))) task lang output
      = (Response.json (strip (joinSpace (segs.map Segment.text)))
          (some info.language) task, false) := by
  have hb : (output == "txt") = false := beq_eq_false_iff_ne.mpr h
  exact ⟨by simp [transcribe, cleanupTmp, hb],
    by simp [transcribe, cleanupTmp, hb]⟩

/-- C10 witness: the vtt output value yields the structured record. -/
theorem c10_structured_default_witness :
    transcribe (Backend.std (Except.ok ⟨"hi", none⟩)) "transcribe" none "vtt"
      = (Response.json "hi" none "transcribe", false) := by
  rw [(c10_structured_default ⟨"hi", none⟩ [] ⟨"en", 1⟩ "transcribe" none "vtt"
    (by decide)).1]
  decide

end WhisperASR
